import Mathlib

/-!
Verification of the todoist sync-API client library.

The repository's core pipeline (client construction, `NewRequest`, `Do`,
the `types` error taxonomy) is exercised by its test-suite, which is in the
sources, while the pipeline implementation file itself is not; following the
spec (§4.2–§4.4, §6, §7) we model those parts faithfully from the spec's
words.  The entity services `projects.go` and `sections.go` ARE in the
sources and are embedded directly from the Go code.
-/

namespace Todoist

/-- Minimal JSON value model, as produced by Go's `encoding/json` for the
command envelope and as consumed by the response decoder. -/
inductive Json where
  | null : Json
  | bool (b : Bool) : Json
  | num (n : Int) : Json
  | str (s : String) : Json
  | arr (xs : List Json) : Json
  | obj (fields : List (String × Json)) : Json

/-- Escape a string for a JSON string literal (quote and backslash, the only
escapes the values in this development need). -/
def jsonEscapeChar (c : Char) : String :=
  if c = '"' then "\\\"" else if c = '\\' then "\\\\" else String.singleton c

def jsonEscape (s : String) : String :=
  String.join (s.data.map jsonEscapeChar)

def renderStr (s : String) : String :=
  "\"" ++ jsonEscape s ++ "\""

mutual

/-- Compact JSON serialization, matching Go `json.Marshal` output shape
(no whitespace). -/
def renderJson : Json → String
  | .null => "null"
  | .bool b => if b then "true" else "false"
  | .num n => toString n
  | .str s => renderStr s
  | .arr xs => "[" ++ renderJsonList xs ++ "]"
  | .obj fs => "\x7b" ++ renderJsonFields fs ++ "\x7d"

def renderJsonList : List Json → String
  | [] => ""
  | [x] => renderJson x
  | x :: y :: xs => renderJson x ++ "," ++ renderJsonList (y :: xs)

def renderJsonFields : List (String × Json) → String
  | [] => ""
  | [(k, v)] => renderStr k ++ ":" ++ renderJson v
  | (k, v) :: f :: fs => renderStr k ++ ":" ++ renderJson v ++ "," ++ renderJsonFields (f :: fs)

end

/-! ### Form-urlencoding (Go `net/url` `Values.Encode` / `QueryEscape`) -/

/-- UTF-8 byte sequence of a character (Go strings are byte strings; query
escaping operates byte-wise). -/
def utf8Bytes (c : Char) : List Nat :=
  let n := c.toNat
  if n < 0x80 then [n]
  else if n < 0x800 then [0xC0 + n / 0x40, 0x80 + n % 0x40]
  else if n < 0x10000 then [0xE0 + n / 0x1000, 0x80 + (n / 0x40) % 0x40, 0x80 + n % 0x40]
  else [0xF0 + n / 0x40000, 0x80 + (n / 0x1000) % 0x40, 0x80 + (n / 0x40) % 0x40, 0x80 + n % 0x40]

/-- Bytes Go's `url.QueryEscape` leaves unescaped: ASCII letters, digits,
and `-`, `_`, `.`, `~`. -/
def unreservedByte (b : Nat) : Bool :=
  (65 ≤ b && b ≤ 90) || (97 ≤ b && b ≤ 122) || (48 ≤ b && b ≤ 57) ||
  b = 45 || b = 95 || b = 46 || b = 126

/-- Uppercase hexadecimal digit, as emitted by Go's percent-encoder. -/
def hexDigit (n : Nat) : Char :=
  if n < 10 then Char.ofNat (48 + n) else Char.ofNat (55 + n)

def escapeByte (b : Nat) : String :=
  if unreservedByte b then String.singleton (Char.ofNat b)
  else if b = 32 then "+"
  else "%" ++ String.singleton (hexDigit (b / 16)) ++ String.singleton (hexDigit (b % 16))

/-- Go `url.QueryEscape`: percent-encode every byte outside the unreserved
set, space as `+`. -/
def queryEscape (s : String) : String :=
  String.join (s.data.map (fun c => String.join ((utf8Bytes c).map escapeByte)))

/-- Lexicographic byte-wise comparison of strings (the order Go's
`sort.Strings` uses on the form keys; all keys here are ASCII). -/
def charListLt : List Char → List Char → Bool
  | [], [] => false
  | [], _ :: _ => true
  | _ :: _, [] => false
  | a :: as, b :: bs =>
    if a.toNat < b.toNat then true
    else if b.toNat < a.toNat then false
    else charListLt as bs

def keyLt (a b : String) : Bool := charListLt a.data b.data

/-- Stable insertion of a key-value pair into a key-sorted association list. -/
def insertByKey (p : String × String) : List (String × String) → List (String × String)
  | [] => [p]
  | q :: qs => if keyLt p.1 q.1 then p :: q :: qs else q :: insertByKey p qs

/-- Sort form fields by key, as Go's `url.Values.Encode` does. -/
def sortByKey : List (String × String) → List (String × String)
  | [] => []
  | p :: ps => insertByKey p (sortByKey ps)

def joinAmp : List String → String
  | [] => ""
  | [s] => s
  | s :: t :: ts => s ++ "&" ++ joinAmp (t :: ts)

/-- Go `url.Values.Encode`: keys sorted, each pair `key=value` with both
sides query-escaped, joined by `&`. -/
def encodeValues (form : List (String × String)) : String :=
  joinAmp ((sortByKey form).map (fun kv => queryEscape kv.1 ++ "=" ++ queryEscape kv.2))

/-! ### Command envelope (spec §3, §6; `types.Command` as used by
`projects.go` / `sections.go`) -/

/-- A single mutation intent: `{type, args, uuid, temp_id}` (spec §6).
The Go field `Type` is a reserved word in Lean, hence `Type_`. -/
structure Command where
  Type_ : String
  Args : Json
  UUID : String
  TempID : String

def commandJson (c : Command) : Json :=
  .obj [("type", .str c.Type_), ("args", c.Args), ("uuid", .str c.UUID),
        ("temp_id", .str c.TempID)]

/-- JSON array of command envelopes, then rendered (form-urlencoding is
applied by `encodeValues`). -/
def commandsValue (cmds : List Command) : String :=
  renderJson (.arr (cmds.map commandJson))

/-- JSON array of resource-type names. -/
def resourceTypesValue (rts : List String) : String :=
  renderJson (.arr (rts.map .str))

/-! ### Request builder (spec §4.2; modelled from the spec — the pipeline
implementation file is not among the sources, only its tests) -/

/-- Modelled from the spec: client configuration — base URL, credential,
debug-logging flag (§5, §6 "CLI/config surface"). -/
structure Client where
  baseURL : String
  token : String
  debug : Bool
deriving DecidableEq, Repr

/-- Modelled from the spec: package-default base URL of the sync API. -/
def defaultBaseURL : String := "https://api.todoist.com/sync/v8"

/-- Modelled from the spec: fixed client identifier sent as User-Agent. -/
def defaultUserAgent : String := "ides15/todoist"

/-- Modelled from the spec: a base URL can form a valid request target iff
it has no ASCII control characters (Go's `url.Parse` rejects exactly those;
the test drives this with `"\t"`). -/
def validRequestTarget (u : String) : Bool :=
  u.data.all (fun c => 32 ≤ c.toNat && c.toNat ≠ 127)

/-- Modelled from the spec: the request-build error (`types.ErrBuildRequest`). -/
inductive BuildError where
  | errBuildRequest
deriving DecidableEq, Repr

/-- Modelled from the spec: the materialized outgoing request — method is
always POST, so we keep URL, the two headers, and the form body in its
structured (decoded) shape; `requestBody` produces the raw encoded body. -/
structure Request where
  url : String
  contentType : String
  userAgent : String
  form : List (String × String)
deriving DecidableEq, Repr

def requestBody (r : Request) : String :=
  encodeValues r.form

/-- Modelled from the spec (§4.2, §6): the form fields — credential always;
`sync_token` only when non-empty; `resource_types` / `commands` only when
the list is non-empty, JSON-encoded. -/
def buildForm (token syncToken : String) (resourceTypes : List String)
    (commands : List Command) : List (String × String) :=
  ("token", token)
    :: ((if syncToken = "" then [] else [("sync_token", syncToken)])
    ++ (if resourceTypes.isEmpty then [] else
          [("resource_types", resourceTypesValue resourceTypes)])
    ++ (if commands.isEmpty then [] else [("commands", commandsValue commands)]))

/-- Modelled from the spec (§4.2): `NewRequest` — fails with the build error
exactly when the configured base URL cannot form a valid request target,
otherwise produces the fully formed request. -/
def NewRequest (c : Client) (syncToken : String) (resourceTypes : List String)
    (commands : List Command) : Except BuildError Request :=
  if validRequestTarget c.baseURL then
    .ok { url := c.baseURL,
          contentType := "application/x-www-form-urlencoded",
          userAgent := defaultUserAgent,
          form := buildForm c.token syncToken resourceTypes commands }
  else
    .error .errBuildRequest

/-! ### Transport executor / response decoder (spec §4.3, §4.4, §7;
modelled from the spec — the pipeline implementation file is not among the
sources, only its tests).  The network exchange itself is abstracted: `Do`
is given the outcome of the exchange (whether the context was already
cancelled, the HTTP status and the decoded body bytes) and performs the
classification the spec describes. -/

/-- Modelled from the spec (§3): the typed API error (`types.HTTPError`) —
error tag, HTTP status observed, numeric error code, extra data. -/
structure HTTPError where
  errorTag : String
  httpCode : Nat
  errorCode : Int
  extraData : List (String × Json)

/-- Modelled from the spec (§7): the error taxonomy surfaced by `execute`. -/
inductive DoError where
  | api (e : HTTPError)
  | unknown (status : Nat)
  | decode (raw : Json)
  | cancelled

/-- Whether a `Do` error is the tagged API error. -/
def DoError.isApi : DoError → Bool
  | .api _ => true
  | _ => false

def jsonField (k : String) (fs : List (String × Json)) : Option Json :=
  fs.lookup k

def strField (k : String) (fs : List (String × Json)) : String :=
  match jsonField k fs with
  | some (.str s) => s
  | _ => ""

def numField (k : String) (fs : List (String × Json)) : Int :=
  match jsonField k fs with
  | some (.num n) => n
  | _ => 0

def extraField (k : String) (fs : List (String × Json)) : List (String × Json) :=
  match jsonField k fs with
  | some (.obj e) => e
  | _ => []

/-- Modelled from the spec (§6): decoding the body as an error envelope —
only a JSON object decodes into the envelope struct; missing fields take
zero values (Go `json.Unmarshal` semantics). -/
def envelopeDecode (status : Nat) : Json → Option HTTPError
  | .obj fs =>
      some { errorTag := strField "error_tag" fs,
             httpCode := status,
             errorCode := numField "error_code" fs,
             extraData := extraField "error_extra" fs }
  | _ => none

/-- The envelope's tag, when the body decodes as an envelope at all.
A tag is "recognizable" when it is non-empty (spec §4.4 step 3). -/
def envelopeTag (j : Json) : Option String :=
  match envelopeDecode 0 j with
  | some e => some e.errorTag
  | none => none

/-- Whether the body decodes as an error envelope with a recognizable
(non-empty) tag. -/
def recognizableTag (j : Json) : Bool :=
  match envelopeTag j with
  | some t => t ≠ ""
  | none => false

/-- Modelled from the spec (§4.3, §4.4): the executor's classification of a
single response.  Arguments: whether the caller's context was already
cancelled, the HTTP status, the body (`none` = empty body), the caller's
destination decoder (`none` = nil destination), and the destination's
current value.  Returns the classified result together with the final
destination value (mutated only on a successful destination decode).
State machine (§4.4): cancelled → CancellationError; empty body →
SUCCESS_EMPTY; envelope with non-empty tag → API_ERROR (regardless of
status); failing HTTP status → unknown error; nil destination → success
without decoding; destination decode failure → MALFORMED; else SUCCESS. -/
def Do (α : Type) (cancelled : Bool) (status : Nat) (body : Option Json)
    (decoder : Option (Json → Option α)) (dest : α) :
    Except DoError (Option Json) × α :=
  if cancelled then (.error .cancelled, dest)
  else match body with
  | none => (.ok none, dest)
  | some j =>
    match envelopeDecode status j with
    | some e =>
        if e.errorTag ≠ "" then (.error (.api e), dest)
        else if 400 ≤ status then (.error (.unknown status), dest)
        else match decoder with
          | none => (.ok (some j), dest)
          | some dec =>
            match dec j with
            | some v => (.ok (some j), v)
            | none => (.error (.decode j), dest)
    | none =>
        if 400 ≤ status then (.error (.unknown status), dest)
        else match decoder with
          | none => (.ok (some j), dest)
          | some dec =>
            match dec j with
            | some v => (.ok (some j), v)
            | none => (.error (.decode j), dest)

/-! ### Entity services — embedded from `projects.go` and `sections.go`.
Calls to `uuid.New().String()` (the google/uuid library) are modelled by an
abstract supply of generated identifier strings; the library's canonical
form is always the 36-character hyphenated string, hence never empty, which
the supply records. -/

/-- Successive draws from `uuid.New().String()`: `gen 0` is the first draw
inside a method body, `gen 1` the second.  The canonical string form of a
generated UUID is never empty. -/
structure UUIDSupply where
  gen : Nat → String
  gen_ne : ∀ n, gen n ≠ ""

/-- `AddProject` from `projects.go` (JSON tags: name; color, parent_id,
child_order, is_favorite all omitempty; TempID excluded by `json:"-"`). -/
structure AddProject where
  Name : String
  Color : Int
  ParentID : Int
  ChildOrder : Int
  IsFavorite : Int
  TempID : String

/-- Go `json.Marshal` of `AddProject`: omitempty drops zero-valued ints,
`json:"-"` drops TempID. -/
def addProjectJson (p : AddProject) : Json :=
  .obj (("name", .str p.Name)
    :: ((if p.Color = 0 then [] else [("color", .num p.Color)])
    ++ (if p.ParentID = 0 then [] else [("parent_id", .num p.ParentID)])
    ++ (if p.ChildOrder = 0 then [] else [("child_order", .num p.ChildOrder)])
    ++ (if p.IsFavorite = 0 then [] else [("is_favorite", .num p.IsFavorite)])))

/-- The command built by `ProjectsService.Add` (projects.go lines 109–125):
a fresh UUID, and TempID defaulted to a second fresh value when the caller
left it empty. -/
def projectsAddCommand (g : UUIDSupply) (p : AddProject) : Command :=
  { Type_ := "project_add",
    Args := addProjectJson p,
    UUID := g.gen 0,
    TempID := if p.TempID = "" then g.gen 1 else p.TempID }

/-- `AddSection` from `sections.go` (JSON tags: name; project_id;
section_order omitempty; TempID excluded by `json:"-"`). -/
structure AddSection where
  Name : String
  ProjectID : Int
  SectionOrder : Int
  TempID : String

def addSectionJson (s : AddSection) : Json :=
  .obj (("name", .str s.Name) :: ("project_id", .num s.ProjectID)
    :: (if s.SectionOrder = 0 then [] else [("section_order", .num s.SectionOrder)]))

/-- The command built by `SectionsService.Add` (sections.go lines 83–99). -/
def sectionsAddCommand (g : UUIDSupply) (s : AddSection) : Command :=
  { Type_ := "section_add",
    Args := addSectionJson s,
    UUID := g.gen 0,
    TempID := if s.TempID = "" then g.gen 1 else s.TempID }

/-! ### The three raw-endpoint project getters (projects.go lines 417–598).
Each: `SetDebug(false)`; `NewRequest(syncToken, []string{}, nil)`; on error
return (debug left false); `SetDebug(true)`; overwrite the URL with
`defaultBaseURL + path`; re-parse the form body, delete `commands`, add the
endpoint-specific fields, re-encode.  We embed the configuration-state
effect and the request actually handed to `Do`; the result is the final
client state paired with that request (`none` when construction failed and
the method returned early). -/

/-- Delete a key from a form multimap (Go `url.Values.Del`). -/
def formDel (k : String) (form : List (String × String)) : List (String × String) :=
  form.filter (fun kv => kv.1 ≠ k)

/-- `ProjectsService.GetProjectInfo` (projects.go lines 417–469), up to the
`Do` call: final client state and the request sent. -/
def GetProjectInfo (c : Client) (syncToken ID : String) (allData : Bool) :
    Client × Option Request :=
  let c := { c with debug := false }
  match NewRequest c syncToken [] [] with
  | .error _ => (c, none)
  | .ok req =>
    let c := { c with debug := true }
    let form := formDel "commands" req.form
      ++ [("project_id", ID), ("all_data", if allData then "true" else "false")]
    (c, some { req with url := defaultBaseURL ++ "/projects/get", form := form })

/-- `ProjectsService.GetProjectData` (projects.go lines 479–530). -/
def GetProjectData (c : Client) (syncToken projectID : String) :
    Client × Option Request :=
  let c := { c with debug := false }
  match NewRequest c syncToken [] [] with
  | .error _ => (c, none)
  | .ok req =>
    let c := { c with debug := true }
    let form := formDel "commands" req.form ++ [("project_id", projectID)]
    (c, some { req with url := defaultBaseURL ++ "/projects/get_data", form := form })

/-- `Pagination` from projects.go. -/
structure Pagination where
  Limit : Int
  Offset : Int

/-- `ProjectsService.GetArchivedProjects` (projects.go lines 544–598);
`pagination` is a nullable pointer — `none` adds no fields. -/
def GetArchivedProjects (c : Client) (syncToken : String)
    (pagination : Option Pagination) : Client × Option Request :=
  let c := { c with debug := false }
  match NewRequest c syncToken [] [] with
  | .error _ => (c, none)
  | .ok req =>
    let c := { c with debug := true }
    let form := formDel "commands" req.form
      ++ (match pagination with
          | none => []
          | some p => [("limit", toString p.Limit), ("offset", toString p.Offset)])
    (c, some { req with url := defaultBaseURL ++ "/projects/get_archived", form := form })

/-! ## Theorems -/

/-- Helper: an envelope decode determines the envelope tag (the tag does not
depend on the HTTP status passed to the decoder). -/
theorem envelopeDecode_tag (status : Nat) (j : Json) (e : HTTPError)
    (h : envelopeDecode status j = some e) : envelopeTag j = some e.errorTag := by
  cases j with
  | obj fs =>
    simp [envelopeDecode] at h
    simp [envelopeTag, envelopeDecode, ← h]
  | null => simp [envelopeDecode] at h
  | bool b => simp [envelopeDecode] at h
  | num n => simp [envelopeDecode] at h
  | str s => simp [envelopeDecode] at h
  | arr xs => simp [envelopeDecode] at h

/-- C1: whenever the response body decodes as an error envelope whose tag is
non-empty, `Do` returns an API error (`HTTPError`) whose tag equals that tag
string exactly and which carries the observed HTTP status — for every HTTP
status (including nominally successful ones) and every caller destination
decoder, so envelope detection takes priority over destination decoding. -/
theorem do_api_error (α : Type) (status : Nat) (j : Json) (t : String)
    (decoder : Option (Json → Option α)) (dest : α)
    (hTag : envelopeTag j = some t) (hne : t ≠ "") :
    ∃ e : HTTPError, Do α false status (some j) decoder dest = (.error (.api e), dest)
      ∧ e.errorTag = t ∧ e.httpCode = status := by
  cases j with
  | obj fs =>
    simp [envelopeTag, envelopeDecode] at hTag
    exact ⟨{ errorTag := strField "error_tag" fs, httpCode := status,
             errorCode := numField "error_code" fs, extraData := extraField "error_extra" fs },
           by simp [Do, envelopeDecode, hTag, hne], hTag, rfl⟩
  | null => simp [envelopeTag, envelopeDecode] at hTag
  | bool b => simp [envelopeTag, envelopeDecode] at hTag
  | num n => simp [envelopeTag, envelopeDecode] at hTag
  | str s => simp [envelopeTag, envelopeDecode] at hTag
  | arr xs => simp [envelopeTag, envelopeDecode] at hTag

/-- Witness for C1: on the body `{"error_tag": "AUTH_CSRF_ERROR"}` with HTTP
status 200 and a destination decoder supplied, `Do` yields the tagged API
error with exactly that tag. -/
theorem do_api_error_witness :
    ∃ e : HTTPError, Do Unit false 200
        (some (.obj [("error_tag", .str "AUTH_CSRF_ERROR")]))
        (some fun _ => some ()) () = (.error (.api e), ())
      ∧ e.errorTag = "AUTH_CSRF_ERROR" ∧ e.httpCode = 200 :=
  do_api_error Unit 200 (.obj [("error_tag", .str "AUTH_CSRF_ERROR")])
    "AUTH_CSRF_ERROR" (some fun _ => some ()) ()
    (by simp [envelopeTag, envelopeDecode, strField, jsonField, List.lookup])
    (by decide)

/-- C2: for every non-empty sync token the built form contains a
`sync_token` field whose (decoded) value equals the input — the form holds
decoded values, `requestBody`/`encodeValues` applies the urlencoding — and
for an empty sync token the field is absent; concretely, credential
`"12345"` with sync token `"*"` yields the raw body
`sync_token=%2A&token=12345`, which contains `token=12345` and
`sync_token=%2A`. -/
theorem newRequest_sync_token (tok st : String) (rts : List String)
    (cmds : List Command) (h : st ≠ "") :
    (buildForm tok st rts cmds).lookup "sync_token" = some st
    ∧ (buildForm tok "" rts cmds).lookup "sync_token" = none
    ∧ encodeValues (buildForm "12345" "*" [] []) = "sync_token=%2A&token=12345" := by
  refine ⟨by simp [buildForm, List.lookup, h], ?_, by decide⟩
  cases hr : rts.isEmpty <;> cases hc : cmds.isEmpty <;>
    simp [buildForm, List.lookup, hr, hc]

/-- Witness for C2, at sync token `"*"`. -/
theorem newRequest_sync_token_witness :
    (buildForm "12345" "*" [] []).lookup "sync_token" = some "*"
    ∧ (buildForm "12345" "" [] []).lookup "sync_token" = none
    ∧ encodeValues (buildForm "12345" "*" [] []) = "sync_token=%2A&token=12345" :=
  newRequest_sync_token "12345" "*" [] [] (by decide)

/-- C3: the built form contains a `commands` field (holding the
JSON-encoded command list) iff the command list is non-empty, and a
`resource_types` field (holding the JSON-encoded list) iff the
resource-type list is non-empty; absent otherwise. -/
theorem newRequest_commands_resources (tok st : String) (rts : List String)
    (cmds : List Command) :
    (buildForm tok st rts cmds).lookup "commands"
      = (if cmds.isEmpty then none else some (commandsValue cmds))
    ∧ (buildForm tok st rts cmds).lookup "resource_types"
      = (if rts.isEmpty then none else some (resourceTypesValue rts)) := by
  by_cases hs : st = "" <;> cases hr : rts.isEmpty <;> cases hc : cmds.isEmpty <;>
    simp [buildForm, List.lookup, hs, hr, hc]

/-- C4: request construction fails with `ErrBuildRequest` — producing no
request object — exactly when the configured base URL cannot form a valid
request target; whenever the base URL is valid, construction succeeds, so
the URL check is the only failure point. -/
theorem newRequest_bad_url (c : Client) (st : String) (rts : List String)
    (cmds : List Command) :
    (validRequestTarget c.baseURL = false →
      NewRequest c st rts cmds = .error .errBuildRequest)
    ∧ (validRequestTarget c.baseURL = true →
      ∃ r, NewRequest c st rts cmds = .ok r) := by
  constructor <;> intro h
  · simp [NewRequest, h]
  · exact ⟨{ url := c.baseURL, contentType := "application/x-www-form-urlencoded",
             userAgent := defaultUserAgent, form := buildForm c.token st rts cmds },
           by simp [NewRequest, h]⟩

/-- Witness for C4: the ASCII control character `"\t"` as base URL breaks
construction, while the default base URL succeeds. -/
theorem newRequest_bad_url_witness :
    NewRequest ⟨"\t", "12345", false⟩ "*" [] [] = .error .errBuildRequest
    ∧ ∃ r, NewRequest ⟨defaultBaseURL, "12345", false⟩ "*" [] [] = .ok r :=
  ⟨(newRequest_bad_url ⟨"\t", "12345", false⟩ "*" [] []).1 (by decide),
   (newRequest_bad_url ⟨defaultBaseURL, "12345", false⟩ "*" [] []).2 (by decide)⟩

/-- C5: a non-empty body that decodes neither as an error envelope with a
recognizable tag nor into the caller's destination shape makes `Do` return
an error — never a successful result — and that error is not the tagged
API error (it is the unknown-status or decode error). -/
theorem do_no_success (α : Type) (status : Nat) (j : Json)
    (dec : Json → Option α) (dest : α)
    (hTag : recognizableTag j = false) (hDec : dec j = none) :
    ∃ e : DoError, Do α false status (some j) (some dec) dest = (.error e, dest)
      ∧ e.isApi = false := by
  rcases he : envelopeDecode status j with _ | e
  · by_cases hst : 400 ≤ status
    · exact ⟨.unknown status, by simp [Do, he, hst], rfl⟩
    · exact ⟨.decode j, by simp [Do, he, hst, hDec], rfl⟩
  · have ht : e.errorTag = "" := by
      have h2 := envelopeDecode_tag status j e he
      simp [recognizableTag, h2] at hTag
      exact hTag
    by_cases hst : 400 ≤ status
    · exact ⟨.unknown status, by simp [Do, he, ht, hst], rfl⟩
    · exact ⟨.decode j, by simp [Do, he, ht, hst, hDec], rfl⟩

/-- Witness for C5: a body that is a bare string (no envelope, no success
shape) on a 400 response yields a non-API classified error. -/
theorem do_no_success_witness :
    ∃ e : DoError, Do Nat false 400 (some (.str "invalid-error"))
        (some fun _ => none) 0 = (.error e, 0) ∧ e.isApi = false :=
  do_no_success Nat 400 (.str "invalid-error") (fun _ => none) 0 (by decide) rfl

/-- C6: when the caller's context is already cancelled, `Do` returns the
cancellation error — an error, hence distinguishable from any successful
result — and leaves the caller's destination value exactly as it was, for
every status, body and decoder. -/
theorem do_cancelled (α : Type) (status : Nat) (body : Option Json)
    (decoder : Option (Json → Option α)) (dest : α) :
    Do α true status body decoder dest = (.error .cancelled, dest) := rfl

/-- C7: on a well-formed non-error response (no recognizable envelope tag,
successful status), `Do` with a nil destination succeeds without decoding;
and on an empty body `Do` succeeds and leaves the destination unmodified,
for every status and decoder. -/
theorem do_nil_dest_empty_body (α : Type) (status status2 : Nat) (j : Json)
    (decoder : Option (Json → Option α)) (dest : α)
    (hTag : recognizableTag j = false) (hst : status < 400) :
    Do α false status (some j) none dest = (.ok (some j), dest)
    ∧ Do α false status2 none decoder dest = (.ok none, dest) := by
  constructor
  · rcases he : envelopeDecode status j with _ | e
    · simp [Do, he, Nat.not_le.mpr hst]
    · have ht : e.errorTag = "" := by
        have h2 := envelopeDecode_tag status j e he
        simp [recognizableTag, h2] at hTag
        exact hTag
      simp [Do, he, ht, Nat.not_le.mpr hst]
  · simp [Do]

/-- Witness for C7: a 200 response with body `{}` and nil destination
succeeds; a 200 response with empty body succeeds leaving the destination
untouched. -/
theorem do_nil_dest_empty_body_witness :
    Do Unit false 200 (some (.obj [])) none () = (.ok (some (.obj [])), ())
    ∧ Do Unit false 200 none none () = (.ok none, ()) :=
  do_nil_dest_empty_body Unit 200 200 (.obj []) none () (by decide) (by decide)

/-- C8: the command built by `Projects.Add` / `Sections.Add` carries the
freshly generated (hence non-empty) UUID, and its TempID equals the
caller-supplied TempID when that is non-empty and is otherwise the next
freshly generated value — so the submitted TempID is never empty. -/
theorem add_commands_fresh_ids (g : UUIDSupply) (p : AddProject) (s : AddSection) :
    (projectsAddCommand g p).UUID = g.gen 0
    ∧ (projectsAddCommand g p).UUID ≠ ""
    ∧ (projectsAddCommand g p).TempID
        = (if p.TempID = "" then g.gen 1 else p.TempID)
    ∧ (projectsAddCommand g p).TempID ≠ ""
    ∧ (sectionsAddCommand g s).UUID = g.gen 0
    ∧ (sectionsAddCommand g s).UUID ≠ ""
    ∧ (sectionsAddCommand g s).TempID
        = (if s.TempID = "" then g.gen 1 else s.TempID)
    ∧ (sectionsAddCommand g s).TempID ≠ "" := by
  refine ⟨rfl, g.gen_ne 0, rfl, ?_, rfl, g.gen_ne 0, rfl, ?_⟩
  · by_cases hp : p.TempID = "" <;> simp [projectsAddCommand, hp, g.gen_ne 1]
  · by_cases hs : s.TempID = "" <;> simp [sectionsAddCommand, hs, g.gen_ne 1]

/-- C9: after `GetProjectInfo`, `GetProjectData` or `GetArchivedProjects`
returns on the path where request construction succeeded, the client's
debug flag is true — whatever `c.debug` was before the call. -/
theorem projects_getters_debug (c : Client) (st ID pid : String)
    (allData : Bool) (pg : Option Pagination)
    (h : validRequestTarget c.baseURL = true) :
    (GetProjectInfo c st ID allData).1.debug = true
    ∧ (GetProjectData c st pid).1.debug = true
    ∧ (GetArchivedProjects c st pg).1.debug = true := by
  refine ⟨?_, ?_, ?_⟩ <;>
    simp [GetProjectInfo, GetProjectData, GetArchivedProjects, NewRequest, h]

/-- Witness for C9, at the default base URL. -/
theorem projects_getters_debug_witness :
    (GetProjectInfo ⟨defaultBaseURL, "12345", false⟩ "*" "42" true).1.debug = true
    ∧ (GetProjectData ⟨defaultBaseURL, "12345", false⟩ "*" "42").1.debug = true
    ∧ (GetArchivedProjects ⟨defaultBaseURL, "12345", false⟩ "*" none).1.debug = true :=
  projects_getters_debug ⟨defaultBaseURL, "12345", false⟩ "*" "42" "42" true none
    (by decide)

/-- C10: whenever request construction succeeds, the request each of the
three raw project getters actually sends targets the package-default base
URL with the endpoint-specific path — regardless of the client's configured
`baseURL` — with the `commands` form field removed and the
endpoint-specific fields added: `project_id` (plus `all_data` for
`GetProjectInfo`), and `limit`/`offset` exactly when pagination is
supplied. -/
theorem projects_getters_rewrite (c : Client) (st ID pid : String)
    (allData : Bool) (p : Pagination)
    (h : validRequestTarget c.baseURL = true) :
    (∃ r, (GetProjectInfo c st ID allData).2 = some r
      ∧ r.url = defaultBaseURL ++ "/projects/get"
      ∧ r.form.lookup "commands" = none
      ∧ r.form.lookup "project_id" = some ID
      ∧ r.form.lookup "all_data" = some (if allData then "true" else "false"))
    ∧ (∃ r, (GetProjectData c st pid).2 = some r
      ∧ r.url = defaultBaseURL ++ "/projects/get_data"
      ∧ r.form.lookup "commands" = none
      ∧ r.form.lookup "project_id" = some pid)
    ∧ (∃ r, (GetArchivedProjects c st (some p)).2 = some r
      ∧ r.url = defaultBaseURL ++ "/projects/get_archived"
      ∧ r.form.lookup "commands" = none
      ∧ r.form.lookup "limit" = some (toString p.Limit)
      ∧ r.form.lookup "offset" = some (toString p.Offset))
    ∧ (∃ r, (GetArchivedProjects c st none).2 = some r
      ∧ r.form.lookup "limit" = none
      ∧ r.form.lookup "offset" = none) := by
  have hreq : NewRequest { c with debug := false } st [] []
      = .ok { url := c.baseURL, contentType := "application/x-www-form-urlencoded",
              userAgent := defaultUserAgent, form := buildForm c.token st [] [] } := by
    simp [NewRequest, h]
  refine ⟨⟨{ url := defaultBaseURL ++ "/projects/get",
             contentType := "application/x-www-form-urlencoded",
             userAgent := defaultUserAgent,
             form := formDel "commands" (buildForm c.token st [] [])
               ++ [("project_id", ID),
                   ("all_data", if allData then "true" else "false")] },
           by simp [GetProjectInfo, hreq], rfl, ?_, ?_, ?_⟩,
          ⟨{ url := defaultBaseURL ++ "/projects/get_data",
             contentType := "application/x-www-form-urlencoded",
             userAgent := defaultUserAgent,
             form := formDel "commands" (buildForm c.token st [] [])
               ++ [("project_id", pid)] },
           by simp [GetProjectData, hreq], rfl, ?_, ?_⟩,
          ⟨{ url := defaultBaseURL ++ "/projects/get_archived",
             contentType := "application/x-www-form-urlencoded",
             userAgent := defaultUserAgent,
             form := formDel "commands" (buildForm c.token st [] [])
               ++ [("limit", toString p.Limit), ("offset", toString p.Offset)] },
           by simp [GetArchivedProjects, hreq], rfl, ?_, ?_, ?_⟩,
          ⟨{ url := defaultBaseURL ++ "/projects/get_archived",
             contentType := "application/x-www-form-urlencoded",
             userAgent := defaultUserAgent,
             form := formDel "commands" (buildForm c.token st [] []) },
           by simp [GetArchivedProjects, hreq], ?_, ?_⟩⟩ <;>
    by_cases hs : st = "" <;>
      simp [formDel, buildForm, List.lookup, hs]

/-- Witness for C10, at the default base URL with concrete arguments. -/
theorem projects_getters_rewrite_witness :
    (∃ r, (GetProjectInfo ⟨defaultBaseURL, "12345", false⟩ "*" "42" true).2 = some r
      ∧ r.url = defaultBaseURL ++ "/projects/get"
      ∧ r.form.lookup "commands" = none
      ∧ r.form.lookup "project_id" = some "42"
      ∧ r.form.lookup "all_data" = some (if true then "true" else "false"))
    ∧ (∃ r, (GetProjectData ⟨defaultBaseURL, "12345", false⟩ "*" "7").2 = some r
      ∧ r.url = defaultBaseURL ++ "/projects/get_data"
      ∧ r.form.lookup "commands" = none
      ∧ r.form.lookup "project_id" = some "7")
    ∧ (∃ r, (GetArchivedProjects ⟨defaultBaseURL, "12345", false⟩ "*"
          (some ⟨5, 10⟩)).2 = some r
      ∧ r.url = defaultBaseURL ++ "/projects/get_archived"
      ∧ r.form.lookup "commands" = none
      ∧ r.form.lookup "limit" = some (toString (5 : Int))
      ∧ r.form.lookup "offset" = some (toString (10 : Int)))
    ∧ (∃ r, (GetArchivedProjects ⟨defaultBaseURL, "12345", false⟩ "*" none).2 = some r
      ∧ r.form.lookup "limit" = none
      ∧ r.form.lookup "offset" = none) :=
  projects_getters_rewrite ⟨defaultBaseURL, "12345", false⟩ "*" "42" "7" true ⟨5, 10⟩
    (by decide)

end Todoist
